import Mathlib

/-!
Shallow embedding of the Patient Management Service
(src/HTTP_method/project.py).

Real numbers of the program (heights in meters, weights in kilograms,
BMI values) are modelled as exact rationals; Python integers as ℤ or ℕ.
Python dicts (the persisted collection keyed by patient ID, and the
frequency tables of the statistics endpoint) are modelled as association
lists with dict-style insert (replace the entry when the key is present,
append otherwise).  Python `round(x, n)` rounds half to even; HTTP 404
responses become an explicit error value of `Except`.
-/

namespace PatientMS

/-- Python `round` to an integer: round half to even on exact rationals. -/
def roundHalfEven (x : ℚ) : ℤ :=
  if x - ⌊x⌋ < 1/2 then ⌊x⌋
  else if 1/2 < x - ⌊x⌋ then ⌊x⌋ + 1
  else if ⌊x⌋ % 2 = 0 then ⌊x⌋ else ⌊x⌋ + 1

/-- Python `round(x, ndigits)`. -/
def pyRound (x : ℚ) (ndigits : ℕ) : ℚ :=
  (roundHalfEven (x * 10 ^ ndigits) : ℚ) / 10 ^ ndigits

/-- `calculate_bmi` (project.py:54-56): `round(weight / (height ** 2), 2)`. -/
def calculate_bmi (height weight : ℚ) : ℚ :=
  pyRound (weight / height ^ 2) 2

/-- `get_bmi_verdict` (project.py:58-67), with the source's exact guards. -/
def get_bmi_verdict (bmi : ℚ) : String :=
  if bmi < 18.5 then "Underweight"
  else if 18.5 ≤ bmi ∧ bmi < 25 then "Normal"
  else if 25 ≤ bmi ∧ bmi < 30 then "Overweight"
  else "Obese"

/-- The BMI classification table as the specification words it:
half-open intervals with inclusive lower bounds. -/
def specVerdict (bmi : ℚ) : String :=
  if bmi < 18.5 then "Underweight"
  else if bmi < 25 then "Normal"
  else if bmi < 30 then "Overweight"
  else "Obese"

/-- A stored patient record (the dict value built in `add_patient`). -/
structure Record where
  name : String
  city : String
  age : ℤ
  gender : String
  height : ℚ
  weight : ℚ
  bmi : ℚ
  verdict : String
  deriving DecidableEq

/-- The `Patient` request model (project.py:12-20): the caller may also
send `bmi` and `verdict`, both optional. -/
structure PatientIn where
  name : String
  city : String
  age : ℤ
  gender : String
  height : ℚ
  weight : ℚ
  bmi : Option ℚ := none
  verdict : Option String := none
  deriving DecidableEq

/-- The `PatientUpdate` request model (project.py:22-28): every field
optional; `none` models a field absent from the request
(`dict(exclude_unset=True)`). -/
structure PatientUpdate where
  name : Option String := none
  city : Option String := none
  age : Option ℤ := none
  gender : Option String := none
  height : Option ℚ := none
  weight : Option ℚ := none
  deriving DecidableEq

/-- The persisted collection: the patients.json dict, keyed by patient ID. -/
abbrev Collection := List (String × Record)

/-- Dict assignment `data[k] = v`: replace when the key is present,
append otherwise. -/
def dictInsert (data : Collection) (pid : String) (r : Record) : Collection :=
  if (data.lookup pid).isSome then
    data.map fun kv => if kv.1 = pid then (pid, r) else kv
  else data ++ [(pid, r)]

/-- Dict removal `data.pop(k)` on a dict (unique keys): drop the entry. -/
def dictErase (data : Collection) (pid : String) : Collection :=
  data.filter fun kv => kv.1 != pid

/-- Decimal digits of `n`, least significant first, with explicit fuel so
the recursion is structural. -/
def decDigitsAux : ℕ → ℕ → List ℕ
  | 0, _ => []
  | _ + 1, 0 => []
  | fuel + 1, n + 1 => ((n + 1) % 10) :: decDigitsAux fuel ((n + 1) / 10)

/-- Decimal digits of `n`, least significant first (`[]` for 0). -/
def decDigits (n : ℕ) : List ℕ := decDigitsAux n n

/-- The character of a decimal digit. -/
def digitChar (d : ℕ) : Char := Char.ofNat (48 + d)

/-- Python `str(n)` for a natural number, as a character list. -/
def natToChars (n : ℕ) : List Char :=
  if n = 0 then ['0'] else ((decDigits n).map digitChar).reverse

/-- Python `str.zfill(width)` on a digit string: pad with leading zeros. -/
def zfillChars (width : ℕ) (s : List Char) : List Char :=
  List.replicate (width - s.length) '0' ++ s

/-- Python `int(s)` on a decimal digit string. -/
def parseNatChars (s : List Char) : ℕ :=
  s.foldl (fun a c => a * 10 + (c.toNat - 48)) 0

/-- `int(pid[1:])`: the numeric suffix of a patient ID. -/
def parseOrd (pid : String) : ℕ := parseNatChars (pid.data.drop 1)

/-- `max([int(pid[1:]) for pid in data.keys()])` over a nonempty dict
(0 when empty; `generate_patient_id` only reads it when nonempty). -/
def maxOrd (data : Collection) : ℕ :=
  (data.map fun kv => parseOrd kv.1).foldl max 0

/-- The ID string `"P" + str(n).zfill(3)`. -/
def pidString (n : ℕ) : String := ⟨'P' :: zfillChars 3 (natToChars n)⟩

/-- `generate_patient_id` (project.py:69-75). -/
def generate_patient_id : Collection → String
  | [] => "P001"
  | data@(_ :: _) => pidString (maxOrd data + 1)

/-- Does a key have the form `P` followed by one or more decimal digits? -/
def isPidKey (pid : String) : Bool :=
  match pid.data with
  | 'P' :: ds => !ds.isEmpty && ds.all fun c => 48 ≤ c.toNat && c.toNat ≤ 57
  | _ => false

/-- The single failure kind the service surfaces: HTTP 404. -/
inductive ApiError
  | notFound
  deriving DecidableEq

/-- `get_patient` (project.py:121-127). -/
def get_patient (data : Collection) (pid : String) : Except ApiError Record :=
  match data.lookup pid with
  | none => .error .notFound
  | some r => .ok r

/-- The record built by `add_patient` from the request body: the six input
fields, with `bmi` and `verdict` computed server-side; client-supplied
`bmi`/`verdict` are not read. -/
def mkRecord (p : PatientIn) : Record :=
  let bmi := calculate_bmi p.height p.weight
  { name := p.name, city := p.city, age := p.age, gender := p.gender,
    height := p.height, weight := p.weight,
    bmi := bmi, verdict := get_bmi_verdict bmi }

/-- What `add_patient` returns (and the collection it saves). -/
structure AddResult where
  collection : Collection
  patient_id : String
  patient_data : Record
  deriving DecidableEq

/-- `add_patient` (project.py:129-161). -/
def add_patient (data : Collection) (p : PatientIn) : AddResult :=
  { collection := dictInsert data (generate_patient_id data) (mkRecord p),
    patient_id := generate_patient_id data,
    patient_data := mkRecord p }

/-- The field merge of `update_patient` (project.py:175-176): provided
fields overwrite, absent fields are kept. -/
def applyUpdate (r : Record) (u : PatientUpdate) : Record :=
  { name := u.name.getD r.name, city := u.city.getD r.city,
    age := u.age.getD r.age, gender := u.gender.getD r.gender,
    height := u.height.getD r.height, weight := u.weight.getD r.weight,
    bmi := r.bmi, verdict := r.verdict }

/-- Recompute the derived fields from the record's current height and
weight (project.py:180-181). -/
def recompute (r : Record) : Record :=
  let bmi := calculate_bmi r.height r.weight
  { r with bmi := bmi, verdict := get_bmi_verdict bmi }

/-- The record `update_patient` stores: merge the provided fields, then
recompute `bmi`/`verdict` iff `height` or `weight` was provided. -/
def updRec (r0 : Record) (u : PatientUpdate) : Record :=
  if u.height.isSome || u.weight.isSome then recompute (applyUpdate r0 u)
  else applyUpdate r0 u

/-- `update_patient` (project.py:163-190). -/
def update_patient (data : Collection) (pid : String) (u : PatientUpdate) :
    Except ApiError (Collection × Record) :=
  match data.lookup pid with
  | none => .error .notFound
  | some r0 =>
    .ok (data.map (fun kv => if kv.1 = pid then (pid, updRec r0 u) else kv),
         updRec r0 u)

/-- `delete_patient` (project.py:192-207). -/
def delete_patient (data : Collection) (pid : String) :
    Except ApiError (Collection × Record) :=
  match data.lookup pid with
  | none => .error .notFound
  | some r => .ok (dictErase data pid, r)

/-- The collection on disk after a PUT request: the exception raised on a
missing ID propagates before `save_data` runs, so the file is untouched. -/
def persistedAfterUpdate (data : Collection) (pid : String)
    (u : PatientUpdate) : Collection :=
  match update_patient data pid u with
  | .ok (d', _) => d'
  | .error _ => data

/-- The collection on disk after a DELETE request. -/
def persistedAfterDelete (data : Collection) (pid : String) : Collection :=
  match delete_patient data pid with
  | .ok (d', _) => d'
  | .error _ => data

/-- Python `str.lower()` (ASCII case folding, as in the stored data). -/
def strLower (s : String) : String := ⟨s.data.map Char.toLower⟩

/-- The dict comprehension of `get_patients_by_city` (project.py:213-216). -/
def matchesByCity (data : Collection) (city : String) : Collection :=
  data.filter fun kv => strLower kv.2.city == strLower city

/-- Response of the city search: a distinguished success payload when
nothing matches, never an error. -/
inductive CityResponse
  | noPatients (message : String)
  | found (city : String) (total : ℕ) (patients : Collection)
  deriving DecidableEq

/-- `get_patients_by_city` (project.py:209-225). -/
def get_patients_by_city (data : Collection) (city : String) : CityResponse :=
  match matchesByCity data city with
  | [] => .noPatients ("No patients found in " ++ city)
  | l@(_ :: _) => .found city l.length l

/-- `dict.get(k, 0) + 1` bookkeeping of the distribution loops
(project.py:241-256). -/
def bump (t : List (String × ℕ)) (k : String) : List (String × ℕ) :=
  if (t.lookup k).isSome then
    t.map fun kv => if kv.1 = k then (k, kv.2 + 1) else kv
  else t ++ [(k, 1)]

/-- A frequency table over a list of values, built exactly as the
statistics endpoint's loops build their dicts. -/
def freqTable (l : List String) : List (String × ℕ) := l.foldl bump []

/-- Python `min` over a list of integers (0 on the empty list, which the
statistics endpoint never reaches). -/
def pyMinI : List ℤ → ℤ
  | [] => 0
  | x :: xs => xs.foldl min x

/-- Python `max` over a list of integers. -/
def pyMaxI : List ℤ → ℤ
  | [] => 0
  | x :: xs => xs.foldl max x

/-- Python `min` over a list of rationals. -/
def pyMinQ : List ℚ → ℚ
  | [] => 0
  | x :: xs => xs.foldl min x

/-- Python `max` over a list of rationals. -/
def pyMaxQ : List ℚ → ℚ
  | [] => 0
  | x :: xs => xs.foldl max x

/-- The statistics payload (project.py:258-273). -/
structure Stats where
  total_patients : ℕ
  average_age : ℚ
  min_age : ℤ
  max_age : ℤ
  average_bmi : ℚ
  min_bmi : ℚ
  max_bmi : ℚ
  gender_distribution : List (String × ℕ)
  city_distribution : List (String × ℕ)
  bmi_verdict_distribution : List (String × ℕ)

/-- Response of the statistics endpoint: the empty-collection indicator is
a distinguished success payload, not an error. -/
inductive StatsResponse
  | noPatients (message : String)
  | stats (s : Stats)

/-- `get_patient_statistics` (project.py:227-273). -/
def get_patient_statistics : Collection → StatsResponse
  | [] => .noPatients "No patients found for statistics"
  | data@(_ :: _) =>
    let ages : List ℤ := data.map fun kv => kv.2.age
    let bmis : List ℚ := data.map fun kv => kv.2.bmi
    .stats {
      total_patients := data.length
      average_age := pyRound ((ages.map (Int.cast : ℤ → ℚ)).sum / (ages.length : ℚ)) 1
      min_age := pyMinI ages
      max_age := pyMaxI ages
      average_bmi := pyRound (bmis.sum / (bmis.length : ℚ)) 2
      min_bmi := pyMinQ bmis
      max_bmi := pyMaxQ bmis
      gender_distribution := freqTable (data.map fun kv => kv.2.gender)
      city_distribution := freqTable (data.map fun kv => kv.2.city)
      bmi_verdict_distribution := freqTable (data.map fun kv => kv.2.verdict) }

/-- The collection states the service can reach from an empty store by
running its mutating endpoints. -/
inductive Reachable : Collection → Prop
  | empty : Reachable []
  | create {d : Collection} (p : PatientIn) :
      Reachable d → Reachable (add_patient d p).collection
  | update {d : Collection} (pid : String) (u : PatientUpdate)
      {d' : Collection} {r : Record} :
      Reachable d → update_patient d pid u = .ok (d', r) → Reachable d'
  | delete {d : Collection} (pid : String) {d' : Collection} {r : Record} :
      Reachable d → delete_patient d pid = .ok (d', r) → Reachable d'

/-- Every stored record's derived fields agree with its current
measurements. -/
def derivedConsistent (data : Collection) : Prop :=
  ∀ kv ∈ data, kv.2.bmi = calculate_bmi kv.2.height kv.2.weight ∧
    kv.2.verdict = get_bmi_verdict kv.2.bmi

/-- The IDs assigned by a sequence of POST requests, in order. -/
def assignedIds : Collection → List PatientIn → List String
  | _, [] => []
  | d, p :: ps =>
    (add_patient d p).patient_id :: assignedIds (add_patient d p).collection ps

/-- Invariant threaded through a sequence of creations: either the
collection is empty (and the next ordinal is 1), or its maximal ordinal
is `n` (and the next is `n + 1`). -/
def GoodState (d : Collection) (n : ℕ) : Prop :=
  (d = [] ∧ n = 0) ∨ (d ≠ [] ∧ maxOrd d = n)

/-- A sample create request body. -/
def examplePatient : PatientIn :=
  { name := "Ann", city := "Boston", age := 30, gender := "female",
    height := 1, weight := 30 }

/-- The same six input fields, but with client-supplied derived fields. -/
def exampleTampered : PatientIn :=
  { name := "Ann", city := "Boston", age := 30, gender := "female",
    height := 1, weight := 30, bmi := some 99, verdict := some "Hacked" }

/-- A sample stored record. -/
def exampleRecord : Record :=
  { name := "Bob", city := "Paris", age := 40, gender := "male",
    height := 2, weight := 80, bmi := 20, verdict := "Normal" }

/-- A sample update request that only sets the weight. -/
def exampleUpdate : PatientUpdate := { weight := some 45 }

/-- First record of the statistics example: age 20, bmi 30. -/
def statRecA : Record :=
  { name := "A", city := "X", age := 20, gender := "f",
    height := 1, weight := 30, bmi := 30, verdict := "Obese" }

/-- Second record of the statistics example: age 40, bmi 20. -/
def statRecB : Record :=
  { name := "B", city := "Y", age := 40, gender := "m",
    height := 1, weight := 20, bmi := 20, verdict := "Normal" }

/-- The two-record collection of the statistics example. -/
def statExample : Collection := [("P001", statRecA), ("P002", statRecB)]

/-- A two-record collection used to exercise deletion of a non-maximal ID. -/
def exampleTwo : Collection := [("P001", exampleRecord), ("P002", statRecA)]

/-- A one-record collection whose single ID has the maximal 3-digit ordinal. -/
def p999Data : Collection := [("P999", exampleRecord)]

/-- A record whose city is the capitalized "Boston". -/
def bostonRec : Record :=
  { name := "C", city := "Boston", age := 25, gender := "f",
    height := 2, weight := 80, bmi := 20, verdict := "Normal" }

/-! ### Association-list (dict) lemmas -/

theorem lookup_cons {β : Type} (k k' : String) (v : β) (l : List (String × β)) :
    List.lookup k ((k', v) :: l) = if k = k' then some v else List.lookup k l := by
  simp only [List.lookup]
  by_cases h : k = k'
  · simp [h]
  · rw [beq_eq_false_iff_ne.mpr h, if_neg h]

theorem lookup_eq_none_iff {β : Type} (l : List (String × β)) (k : String) :
    l.lookup k = none ↔ ∀ kv ∈ l, kv.1 ≠ k := by
  induction l with
  | nil => simp
  | cons a l ih =>
    rcases a with ⟨k', v⟩
    rw [lookup_cons]
    by_cases h : k = k'
    · simp [h]
    · simp only [if_neg h, ih, List.mem_cons]
      constructor
      · rintro hl kv (rfl | hkv)
        · exact fun he => h he.symm
        · exact hl kv hkv
      · intro hl kv hkv
        exact hl kv (Or.inr hkv)

theorem lookup_mem {β : Type} {l : List (String × β)} {k : String} {v : β}
    (h : l.lookup k = some v) : (k, v) ∈ l := by
  induction l with
  | nil => simp [List.lookup] at h
  | cons a l ih =>
    rcases a with ⟨k', v'⟩
    rw [lookup_cons] at h
    rw [List.mem_cons]
    by_cases hk : k = k'
    · rw [if_pos hk] at h
      left
      rw [Prod.mk.injEq]
      exact ⟨hk, (Option.some.inj h).symm⟩
    · rw [if_neg hk] at h
      exact Or.inr (ih h)

theorem lookup_append {β : Type} (t t' : List (String × β)) (k : String) :
    (t ++ t').lookup k =
      match t.lookup k with
      | some v => some v
      | none => t'.lookup k := by
  induction t with
  | nil => rfl
  | cons a t ih =>
    rcases a with ⟨k', v⟩
    rw [List.cons_append, lookup_cons, lookup_cons]
    by_cases h : k = k' <;> simp [h, ih]

theorem mem_dictErase {data : Collection} {pid : String} {kv : String × Record} :
    kv ∈ dictErase data pid ↔ kv ∈ data ∧ kv.1 ≠ pid := by
  unfold dictErase
  rw [List.mem_filter, bne_iff_ne]

theorem dictErase_lookup (data : Collection) (pid : String) :
    (dictErase data pid).lookup pid = none := by
  rw [lookup_eq_none_iff]
  intro kv hkv
  exact (mem_dictErase.mp hkv).2

/-! ### The classification function against the specification's table -/

theorem get_bmi_verdict_eq_spec (q : ℚ) : get_bmi_verdict q = specVerdict q := by
  unfold get_bmi_verdict specVerdict
  by_cases h1 : q < 18.5
  · simp [h1]
  · rw [if_neg h1, if_neg h1]
    push_neg at h1
    by_cases h2 : q < 25
    · rw [if_pos ⟨h1, h2⟩, if_pos h2]
    · rw [if_neg (fun h => h2 h.2), if_neg h2]
      push_neg at h2
      by_cases h3 : q < 30
      · rw [if_pos ⟨h2, h3⟩, if_pos h3]
      · rw [if_neg (fun h => h3 h.2), if_neg h3]

/-! ### Decimal digits, formatting and parsing -/

theorem foldr_decDigitsAux (fuel : ℕ) :
    ∀ n : ℕ, n ≤ fuel →
      (decDigitsAux fuel n).foldr (fun d a => a * 10 + d) 0 = n := by
  induction fuel with
  | zero =>
    intro n h
    interval_cases n
    rfl
  | succ fuel ih =>
    intro n h
    match n with
    | 0 => rfl
    | m + 1 =>
      rw [decDigitsAux, List.foldr_cons, ih ((m + 1) / 10) (by omega)]
      omega

theorem decDigitsAux_lt_ten (fuel : ℕ) :
    ∀ n : ℕ, ∀ d ∈ decDigitsAux fuel n, d < 10 := by
  induction fuel with
  | zero => intro n d hd; simp [decDigitsAux] at hd
  | succ fuel ih =>
    intro n d hd
    match n with
    | 0 => simp [decDigitsAux] at hd
    | m + 1 =>
      rw [decDigitsAux, List.mem_cons] at hd
      rcases hd with rfl | hd
      · omega
      · exact ih _ d hd

theorem lt_pow_length_decDigitsAux (fuel : ℕ) :
    ∀ n : ℕ, n ≤ fuel → n < 10 ^ (decDigitsAux fuel n).length := by
  induction fuel with
  | zero =>
    intro n h
    interval_cases n
    simp [decDigitsAux]
  | succ fuel ih =>
    intro n h
    match n with
    | 0 => simp [decDigitsAux]
    | m + 1 =>
      rw [decDigitsAux, List.length_cons]
      have hrec := ih ((m + 1) / 10) (by omega)
      have h9 : m + 1 < ((m + 1) / 10 + 1) * 10 := by omega
      calc m + 1 < ((m + 1) / 10 + 1) * 10 := h9
        _ ≤ 10 ^ (decDigitsAux fuel ((m + 1) / 10)).length * 10 :=
            Nat.mul_le_mul_right 10 (by omega)
        _ = 10 ^ ((decDigitsAux fuel ((m + 1) / 10)).length + 1) := by
            rw [pow_succ]

theorem digitChar_toNat {d : ℕ} (hd : d < 10) : (digitChar d).toNat = 48 + d := by
  interval_cases d <;> decide

theorem parseNatChars_rev_map (L : List ℕ) (hd : ∀ d ∈ L, d < 10) :
    parseNatChars ((L.map digitChar).reverse) =
      L.foldr (fun d a => a * 10 + d) 0 := by
  unfold parseNatChars
  rw [List.foldl_reverse, List.foldr_map]
  induction L with
  | nil => rfl
  | cons d L ih =>
    rw [List.foldr_cons, List.foldr_cons,
      ih (fun x hx => hd x (List.mem_cons_of_mem d hx)),
      digitChar_toNat (hd d (List.mem_cons_self d L))]
    omega

theorem parseNat_natToChars (n : ℕ) : parseNatChars (natToChars n) = n := by
  by_cases h : n = 0
  · subst h; decide
  · unfold natToChars
    rw [if_neg h]
    unfold decDigits
    rw [parseNatChars_rev_map _ (decDigitsAux_lt_ten n n),
      foldr_decDigitsAux n n le_rfl]

theorem parseNatChars_zfill (w : ℕ) (s : List Char) :
    parseNatChars (zfillChars w s) = parseNatChars s := by
  unfold zfillChars parseNatChars
  rw [List.foldl_append]
  have hz : ∀ k : ℕ,
      List.foldl (fun a c => a * 10 + (c.toNat - 48)) 0 (List.replicate k '0') = 0 := by
    intro k
    induction k with
    | zero => rfl
    | succ k ih => rw [List.replicate_succ, List.foldl_cons]; exact ih
  rw [hz]

theorem parseOrd_pidString (n : ℕ) : parseOrd (pidString n) = n := by
  show parseNatChars (List.drop 1 ('P' :: zfillChars 3 (natToChars n))) = n
  rw [List.drop_one, List.tail_cons, parseNatChars_zfill, parseNat_natToChars]

/-! ### Folded minima and maxima -/

theorem init_le_foldl_max {α : Type} [LinearOrder α] (l : List α) (a : α) :
    a ≤ l.foldl max a := by
  induction l generalizing a with
  | nil => exact le_rfl
  | cons x l ih => exact le_trans (le_max_left a x) (ih (max a x))

theorem le_foldl_max {α : Type} [LinearOrder α] {l : List α} {x : α}
    (hx : x ∈ l) (a : α) : x ≤ l.foldl max a := by
  induction l generalizing a with
  | nil => simp at hx
  | cons y l ih =>
    rcases List.mem_cons.mp hx with rfl | hx
    · exact le_trans (le_max_right a x) (init_le_foldl_max l (max a x))
    · exact ih hx (max a y)

theorem foldl_max_choice {α : Type} [LinearOrder α] (l : List α) (a : α) :
    l.foldl max a = a ∨ l.foldl max a ∈ l := by
  induction l generalizing a with
  | nil => exact Or.inl rfl
  | cons x l ih =>
    rw [List.foldl_cons]
    rcases ih (max a x) with h | h
    · rw [h]
      rcases max_choice a x with h' | h'
      · exact Or.inl h'
      · exact Or.inr (by rw [h']; exact List.mem_cons_self x l)
    · exact Or.inr (List.mem_cons_of_mem x h)

theorem foldl_max_le {α : Type} [LinearOrder α] {l : List α} {a b : α}
    (ha : a ≤ b) (h : ∀ x ∈ l, x ≤ b) : l.foldl max a ≤ b := by
  induction l generalizing a with
  | nil => exact ha
  | cons x l ih =>
    exact ih (max_le ha (h x (List.mem_cons_self x l)))
      fun y hy => h y (List.mem_cons_of_mem x hy)

theorem foldl_min_choice {α : Type} [LinearOrder α] (l : List α) (a : α) :
    l.foldl min a = a ∨ l.foldl min a ∈ l := by
  induction l generalizing a with
  | nil => exact Or.inl rfl
  | cons x l ih =>
    rw [List.foldl_cons]
    rcases ih (min a x) with h | h
    · rw [h]
      rcases min_choice a x with h' | h'
      · exact Or.inl h'
      · exact Or.inr (by rw [h']; exact List.mem_cons_self x l)
    · exact Or.inr (List.mem_cons_of_mem x h)

theorem foldl_min_le_init {α : Type} [LinearOrder α] (l : List α) (a : α) :
    l.foldl min a ≤ a := by
  induction l generalizing a with
  | nil => exact le_rfl
  | cons x l ih => exact le_trans (ih (min a x)) (min_le_left a x)

theorem foldl_min_le {α : Type} [LinearOrder α] {l : List α} {x : α}
    (hx : x ∈ l) (a : α) : l.foldl min a ≤ x := by
  induction l generalizing a with
  | nil => simp at hx
  | cons y l ih =>
    rcases List.mem_cons.mp hx with rfl | hx
    · exact le_trans (foldl_min_le_init l (min a x)) (min_le_right a x)
    · exact ih hx (min a y)

/-! ### ID generation -/

theorem parseOrd_le_maxOrd {data : Collection} {kv : String × Record}
    (h : kv ∈ data) : parseOrd kv.1 ≤ maxOrd data :=
  le_foldl_max (List.mem_map_of_mem (fun kv => parseOrd kv.1) h) 0

theorem generate_patient_id_cons (a : String × Record) (l : Collection) :
    generate_patient_id (a :: l) = pidString (maxOrd (a :: l) + 1) := rfl

theorem parseOrd_generate {data : Collection} (h : data ≠ []) :
    parseOrd (generate_patient_id data) = maxOrd data + 1 := by
  match data with
  | [] => exact absurd rfl h
  | a :: l => rw [generate_patient_id_cons, parseOrd_pidString]

theorem generate_fresh (data : Collection) :
    data.lookup (generate_patient_id data) = none := by
  rw [lookup_eq_none_iff]
  intro kv hkv heq
  have h1 := parseOrd_le_maxOrd hkv
  rw [heq, parseOrd_generate (List.ne_nil_of_mem hkv)] at h1
  omega

theorem add_patient_collection (data : Collection) (p : PatientIn) :
    (add_patient data p).collection =
      data ++ [(generate_patient_id data, mkRecord p)] := by
  unfold add_patient dictInsert
  rw [generate_fresh data]
  rfl

theorem add_patient_id (data : Collection) (p : PatientIn) :
    (add_patient data p).patient_id = generate_patient_id data := rfl

theorem maxOrd_append (data : Collection) (k : String) (r : Record) :
    maxOrd (data ++ [(k, r)]) = max (maxOrd data) (parseOrd k) := by
  unfold maxOrd
  rw [List.map_append, List.foldl_append]
  rfl

theorem add_step {d : Collection} {n : ℕ} (hg : GoodState d n) (p : PatientIn) :
    (add_patient d p).patient_id = pidString (n + 1) ∧
      GoodState (add_patient d p).collection (n + 1) := by
  have hid : (add_patient d p).patient_id = generate_patient_id d := rfl
  rcases hg with ⟨rfl, rfl⟩ | ⟨hne, hmax⟩
  · refine ⟨by rw [hid]; decide, Or.inr ⟨?_, ?_⟩⟩
    · rw [add_patient_collection]
      simp
    · rw [add_patient_collection, maxOrd_append]
      have : generate_patient_id ([] : Collection) = pidString 1 := by decide
      rw [this, parseOrd_pidString]
      rfl
  · have hgen : generate_patient_id d = pidString (n + 1) := by
      match d with
      | [] => exact absurd rfl hne
      | a :: l => rw [generate_patient_id_cons, hmax]
    refine ⟨by rw [hid, hgen], Or.inr ⟨?_, ?_⟩⟩
    · rw [add_patient_collection]
      simp [hne]
    · rw [add_patient_collection, maxOrd_append, hgen, parseOrd_pidString, hmax]
      omega

theorem assignedIds_eq {d : Collection} {n : ℕ} (ps : List PatientIn)
    (hg : GoodState d n) :
    assignedIds d ps = (List.range ps.length).map fun i => pidString (n + i + 1) := by
  induction ps generalizing d n with
  | nil => rfl
  | cons p ps ih =>
    obtain ⟨hid, hg'⟩ := add_step hg p
    show (add_patient d p).patient_id :: assignedIds (add_patient d p).collection ps = _
    rw [hid, ih hg', List.length_cons, List.range_succ_eq_map, List.map_cons,
      List.map_map]
    refine congrArg₂ _ (by rw [Nat.add_zero]) (List.map_congr_left ?_)
    intro i hi
    show pidString (n + 1 + i + 1) = pidString (n + (i + 1) + 1)
    rw [show n + 1 + i + 1 = n + (i + 1) + 1 by omega]

theorem maxOrd_dictErase_le (data : Collection) (pid : String) :
    maxOrd (dictErase data pid) ≤ maxOrd data := by
  refine foldl_max_le (Nat.zero_le _) ?_
  intro x hx
  obtain ⟨kv, hkv, rfl⟩ := List.mem_map.mp hx
  exact parseOrd_le_maxOrd (mem_dictErase.mp hkv).1

theorem maxOrd_attained {data : Collection} (h : maxOrd data ≠ 0) :
    ∃ kv ∈ data, parseOrd kv.1 = maxOrd data := by
  rcases foldl_max_choice (data.map fun kv => parseOrd kv.1) 0 with hc | hc
  · exact absurd hc h
  · obtain ⟨kv, hkv, he⟩ := List.mem_map.mp hc
    exact ⟨kv, hkv, he⟩

theorem maxOrd_dictErase_of_lt {data : Collection} {pid : String}
    (h : parseOrd pid < maxOrd data) :
    maxOrd (dictErase data pid) = maxOrd data ∧ dictErase data pid ≠ [] := by
  have h0 : maxOrd data ≠ 0 := by omega
  obtain ⟨kv, hkv, hmax⟩ := maxOrd_attained h0
  have hne : kv.1 ≠ pid := by
    intro he
    rw [he] at hmax
    omega
  have hmem : kv ∈ dictErase data pid := mem_dictErase.mpr ⟨hkv, hne⟩
  refine ⟨le_antisymm (maxOrd_dictErase_le data pid) ?_, List.ne_nil_of_mem hmem⟩
  rw [← hmax]
  exact le_foldl_max (List.mem_map_of_mem (fun kv => parseOrd kv.1) hmem) 0

/-! ### The updated record -/

theorem updRec_name (r0 : Record) (u : PatientUpdate) :
    (updRec r0 u).name = u.name.getD r0.name := by
  unfold updRec recompute applyUpdate
  split <;> rfl

theorem updRec_city (r0 : Record) (u : PatientUpdate) :
    (updRec r0 u).city = u.city.getD r0.city := by
  unfold updRec recompute applyUpdate
  split <;> rfl

theorem updRec_age (r0 : Record) (u : PatientUpdate) :
    (updRec r0 u).age = u.age.getD r0.age := by
  unfold updRec recompute applyUpdate
  split <;> rfl

theorem updRec_gender (r0 : Record) (u : PatientUpdate) :
    (updRec r0 u).gender = u.gender.getD r0.gender := by
  unfold updRec recompute applyUpdate
  split <;> rfl

theorem updRec_height (r0 : Record) (u : PatientUpdate) :
    (updRec r0 u).height = u.height.getD r0.height := by
  unfold updRec recompute applyUpdate
  split <;> rfl

theorem updRec_weight (r0 : Record) (u : PatientUpdate) :
    (updRec r0 u).weight = u.weight.getD r0.weight := by
  unfold updRec recompute applyUpdate
  split <;> rfl

theorem updRec_recomputed {u : PatientUpdate}
    (h : (u.height.isSome || u.weight.isSome) = true) (r0 : Record) :
    (updRec r0 u).bmi = calculate_bmi (updRec r0 u).height (updRec r0 u).weight ∧
      (updRec r0 u).verdict = get_bmi_verdict ((updRec r0 u).bmi) := by
  unfold updRec
  rw [if_pos h]
  exact ⟨rfl, rfl⟩

theorem updRec_untouched {u : PatientUpdate}
    (hh : u.height = none) (hw : u.weight = none) (r0 : Record) :
    (updRec r0 u).bmi = r0.bmi ∧ (updRec r0 u).verdict = r0.verdict ∧
      (updRec r0 u).height = r0.height ∧ (updRec r0 u).weight = r0.weight := by
  have hb : (u.height.isSome || u.weight.isSome) = false := by rw [hh, hw]; rfl
  unfold updRec
  rw [hb]
  simp only [Bool.false_eq_true, if_false]
  refine ⟨rfl, rfl, ?_, ?_⟩
  · show u.height.getD r0.height = r0.height
    rw [hh]
    rfl
  · show u.weight.getD r0.weight = r0.weight
    rw [hw]
    rfl

theorem update_patient_some {data : Collection} {pid : String} {r0 : Record}
    (h : data.lookup pid = some r0) (u : PatientUpdate) :
    update_patient data pid u =
      .ok (data.map (fun kv => if kv.1 = pid then (pid, updRec r0 u) else kv),
        updRec r0 u) := by
  unfold update_patient
  rw [h]

theorem update_patient_none {data : Collection} {pid : String}
    (h : data.lookup pid = none) (u : PatientUpdate) :
    update_patient data pid u = .error .notFound := by
  unfold update_patient
  rw [h]

theorem delete_patient_some {data : Collection} {pid : String} {r : Record}
    (h : data.lookup pid = some r) :
    delete_patient data pid = .ok (dictErase data pid, r) := by
  unfold delete_patient
  rw [h]

theorem delete_patient_none {data : Collection} {pid : String}
    (h : data.lookup pid = none) :
    delete_patient data pid = .error .notFound := by
  unfold delete_patient
  rw [h]

/-! ### Frequency tables -/

theorem lookup_map_incr (t : List (String × ℕ)) (a g : String) :
    (t.map fun kv => if kv.1 = a then (a, kv.2 + 1) else kv).lookup g =
      if g = a then (t.lookup a).map (· + 1) else t.lookup g := by
  induction t with
  | nil =>
    by_cases h : g = a <;> simp [h, List.lookup]
  | cons kv t ih =>
    rcases kv with ⟨k, v⟩
    show List.lookup g
        ((if k = a then (a, v + 1) else (k, v)) ::
          (t.map fun kv => if kv.1 = a then (a, kv.2 + 1) else kv)) =
      if g = a then (List.lookup a ((k, v) :: t)).map (· + 1)
      else List.lookup g ((k, v) :: t)
    by_cases hk : k = a
    · rw [if_pos hk, lookup_cons]
      by_cases hg : g = a
      · rw [if_pos hg, if_pos hg, lookup_cons, if_pos hk.symm, Option.map_some']
      · rw [if_neg hg, if_neg hg, ih, if_neg hg, lookup_cons]
        have hgk : ¬ g = k := fun h => hg (h.trans hk)
        rw [if_neg hgk]
    · rw [if_neg hk, lookup_cons]
      by_cases hg : g = k
      · have hga : ¬ g = a := fun h => hk (hg.symm.trans h)
        rw [if_pos hg, if_neg hga, lookup_cons, if_pos hg]
      · rw [if_neg hg, ih]
        by_cases hga : g = a
        · rw [if_pos hga, if_pos hga, lookup_cons]
          have hak : ¬ a = k := fun h => hk h.symm
          rw [if_neg hak]
        · rw [if_neg hga, if_neg hga, lookup_cons, if_neg hg]

theorem bump_lookup (t : List (String × ℕ)) (k g : String) :
    (bump t k).lookup g =
      if g = k then some ((t.lookup k).getD 0 + 1) else t.lookup g := by
  unfold bump
  by_cases hs : (t.lookup k).isSome = true
  · rw [if_pos hs, lookup_map_incr]
    obtain ⟨v, hv⟩ := Option.isSome_iff_exists.mp hs
    by_cases hg : g = k
    · rw [if_pos hg, if_pos hg, hv, Option.map_some', Option.getD_some]
    · rw [if_neg hg, if_neg hg]
  · rw [if_neg hs, lookup_append]
    have hnone : t.lookup k = none := Option.not_isSome_iff_eq_none.mp hs
    by_cases hg : g = k
    · rw [if_pos hg, hg, hnone]
      show List.lookup k [(k, 1)] = some ((0 : ℕ) + 1)
      rw [lookup_cons, if_pos rfl]
    · rw [if_neg hg]
      rcases h : t.lookup g with _ | v
      · show List.lookup g [(k, 1)] = none
        rw [lookup_cons, if_neg hg]
        rfl
      · rfl

theorem fold_bump_lookup (l : List String) (t : List (String × ℕ)) (g : String) :
    (l.foldl bump t).lookup g =
      if t.lookup g = none ∧ g ∉ l then none
      else some ((t.lookup g).getD 0 + l.count g) := by
  induction l generalizing t with
  | nil =>
    rcases h : t.lookup g with _ | v <;> simp [h]
  | cons a l ih =>
    rw [List.foldl_cons, ih, bump_lookup]
    by_cases hg : g = a
    · rw [if_pos hg, hg]
      have hL : ¬ ((some ((t.lookup a).getD 0 + 1) = none) ∧ a ∉ l) := by
        intro hc
        exact Option.some_ne_none _ hc.1
      rw [if_neg hL, Option.getD_some]
      have hR : ¬ (t.lookup a = none ∧ a ∉ a :: l) := by
        intro hc
        exact hc.2 (List.mem_cons_self a l)
      rw [if_neg hR, List.count_cons_self]
      congr 1
      omega
    · rw [if_neg hg]
      have hcnt : (a :: l).count g = l.count g := List.count_cons_of_ne hg l
      rw [hcnt]
      by_cases hc : t.lookup g = none ∧ g ∉ l
      · have hc' : t.lookup g = none ∧ g ∉ a :: l := by
          refine ⟨hc.1, ?_⟩
          intro hmem
          rcases List.mem_cons.mp hmem with h | h
          · exact hg h
          · exact hc.2 h
        rw [if_pos hc, if_pos hc']
      · have hc' : ¬ (t.lookup g = none ∧ g ∉ a :: l) := by
          intro hx
          exact hc ⟨hx.1, fun h => hx.2 (List.mem_cons_of_mem a h)⟩
        rw [if_neg hc, if_neg hc']

theorem freqTable_lookup (l : List String) (g : String) :
    (freqTable l).lookup g =
      if 0 < l.count g then some (l.count g) else none := by
  unfold freqTable
  rw [fold_bump_lookup]
  have hnone : List.lookup g ([] : List (String × ℕ)) = none := rfl
  rw [hnone]
  by_cases hm : g ∈ l
  · have hc : 0 < l.count g := List.count_pos_iff.mpr hm
    rw [if_neg (fun hh => hh.2 hm), if_pos hc, Option.getD_none, Nat.zero_add]
  · have hc : l.count g = 0 := List.count_eq_zero.mpr hm
    rw [if_pos ⟨rfl, hm⟩, if_neg (by omega)]

/-! ### More helper facts -/

theorem generate_eq_of_ne_nil {data : Collection} (h : data ≠ []) :
    generate_patient_id data = pidString (maxOrd data + 1) := by
  match data with
  | [] => exact absurd rfl h
  | a :: l => rfl

theorem foldl_min_cons_spec {α : Type} [LinearOrder α] (x : α) (xs : List α) :
    xs.foldl min x ∈ x :: xs ∧ ∀ a ∈ x :: xs, xs.foldl min x ≤ a := by
  constructor
  · rcases foldl_min_choice xs x with h | h
    · rw [h]; exact List.mem_cons_self x xs
    · exact List.mem_cons_of_mem x h
  · intro a ha
    rcases List.mem_cons.mp ha with rfl | ha
    · exact foldl_min_le_init xs a
    · exact foldl_min_le ha x

theorem foldl_max_cons_spec {α : Type} [LinearOrder α] (x : α) (xs : List α) :
    xs.foldl max x ∈ x :: xs ∧ ∀ a ∈ x :: xs, a ≤ xs.foldl max x := by
  constructor
  · rcases foldl_max_choice xs x with h | h
    · rw [h]; exact List.mem_cons_self x xs
    · exact List.mem_cons_of_mem x h
  · intro a ha
    rcases List.mem_cons.mp ha with rfl | ha
    · exact init_le_foldl_max xs a
    · exact le_foldl_max ha x

/-! ### The claims -/

/-- C1: for every create or update input with height > 0 and weight > 0, the
stored record's bmi equals round(weight / height^2, 2) and its verdict is
determined by the half-open classification table with inclusive lower bounds;
in particular bmi = 18.5 yields Normal, 25.0 yields Overweight, 30.0 yields
Obese. -/
theorem claim_C1 :
    (∀ (data : Collection) (p : PatientIn), 0 < p.height → 0 < p.weight →
      (add_patient data p).patient_data.bmi = pyRound (p.weight / p.height ^ 2) 2 ∧
      (add_patient data p).patient_data.verdict =
        specVerdict (add_patient data p).patient_data.bmi) ∧
    (∀ (data : Collection) (pid : String) (u : PatientUpdate)
        (d' : Collection) (r : Record),
      update_patient data pid u = .ok (d', r) →
      (u.height.isSome || u.weight.isSome) = true →
      0 < r.height → 0 < r.weight →
      r.bmi = pyRound (r.weight / r.height ^ 2) 2 ∧
      r.verdict = specVerdict r.bmi) ∧
    (∀ q : ℚ, get_bmi_verdict q = specVerdict q) ∧
    specVerdict 18.5 = "Normal" ∧ specVerdict 25 = "Overweight" ∧
    specVerdict 30 = "Obese" := by
  refine ⟨?_, ?_, get_bmi_verdict_eq_spec, ?_, ?_, ?_⟩
  · intro data p _ _
    refine ⟨rfl, ?_⟩
    show get_bmi_verdict (calculate_bmi p.height p.weight) = _
    rw [get_bmi_verdict_eq_spec]
    rfl
  · intro data pid u d' r hok hrec _ _
    cases h : data.lookup pid with
    | none => rw [update_patient_none h] at hok; exact absurd hok (by simp)
    | some r0 =>
      rw [update_patient_some h] at hok
      simp only [Except.ok.injEq, Prod.mk.injEq] at hok
      obtain ⟨-, hr⟩ := hok
      subst hr
      obtain ⟨h1, h2⟩ := updRec_recomputed hrec r0
      refine ⟨h1.trans rfl, ?_⟩
      rw [h2, get_bmi_verdict_eq_spec]
  · norm_num [specVerdict]
  · norm_num [specVerdict]
  · norm_num [specVerdict]

/-- Witness for C1 at a concrete create request (height 1 m, weight 30 kg). -/
theorem claim_C1_witness :
    (add_patient [] examplePatient).patient_data.bmi =
      pyRound (examplePatient.weight / examplePatient.height ^ 2) 2 ∧
    (add_patient [] examplePatient).patient_data.verdict =
      specVerdict (add_patient [] examplePatient).patient_data.bmi :=
  claim_C1.1 [] examplePatient (by norm_num [examplePatient])
    (by norm_num [examplePatient])

/-- C2: for every existing record and every partial update, absent fields are
kept; if height or weight is present, bmi and verdict are recomputed from the
record's resulting height and weight; an update touching neither leaves bmi
and verdict unchanged; untouched records stay in the stored collection. -/
theorem claim_C2 (data : Collection) (pid : String) (u : PatientUpdate)
    (r0 : Record) (h : data.lookup pid = some r0) :
    ∃ d' r, update_patient data pid u = .ok (d', r) ∧
      (u.name = none → r.name = r0.name) ∧
      (u.city = none → r.city = r0.city) ∧
      (u.age = none → r.age = r0.age) ∧
      (u.gender = none → r.gender = r0.gender) ∧
      (u.height = none → r.height = r0.height) ∧
      (u.weight = none → r.weight = r0.weight) ∧
      ((u.height.isSome || u.weight.isSome) = true →
        r.bmi = calculate_bmi r.height r.weight ∧
        r.verdict = get_bmi_verdict r.bmi ∧
        r.height = u.height.getD r0.height ∧
        r.weight = u.weight.getD r0.weight) ∧
      (u.height = none → u.weight = none →
        r.bmi = r0.bmi ∧ r.verdict = r0.verdict) ∧
      (∀ kv ∈ data, kv.1 ≠ pid → kv ∈ d') ∧ (pid, r) ∈ d' := by
  refine ⟨_, updRec r0 u, update_patient_some h u, ?_, ?_, ?_, ?_, ?_, ?_,
    ?_, ?_, ?_, ?_⟩
  · intro hn; rw [updRec_name, hn]; rfl
  · intro hn; rw [updRec_city, hn]; rfl
  · intro hn; rw [updRec_age, hn]; rfl
  · intro hn; rw [updRec_gender, hn]; rfl
  · intro hn; rw [updRec_height, hn]; rfl
  · intro hn; rw [updRec_weight, hn]; rfl
  · intro hrec
    obtain ⟨h1, h2⟩ := updRec_recomputed hrec r0
    exact ⟨h1, h2, updRec_height r0 u, updRec_weight r0 u⟩
  · intro hh hw
    obtain ⟨h1, h2, -, -⟩ := updRec_untouched hh hw r0
    exact ⟨h1, h2⟩
  · intro kv hkv hne
    refine List.mem_map.mpr ⟨kv, hkv, ?_⟩
    show (if kv.1 = pid then (pid, updRec r0 u) else kv) = kv
    rw [if_neg hne]
  · refine List.mem_map.mpr ⟨(pid, r0), lookup_mem h, ?_⟩
    show (if (pid, r0).1 = pid then (pid, updRec r0 u) else (pid, r0)) =
      (pid, updRec r0 u)
    rw [if_pos rfl]

/-- Witness for C2: update only the weight of a stored record. -/
theorem claim_C2_witness :
    ∃ d' r, update_patient [("P001", exampleRecord)] "P001" exampleUpdate =
        .ok (d', r) ∧
      (exampleUpdate.name = none → r.name = exampleRecord.name) ∧
      (exampleUpdate.city = none → r.city = exampleRecord.city) ∧
      (exampleUpdate.age = none → r.age = exampleRecord.age) ∧
      (exampleUpdate.gender = none → r.gender = exampleRecord.gender) ∧
      (exampleUpdate.height = none → r.height = exampleRecord.height) ∧
      (exampleUpdate.weight = none → r.weight = exampleRecord.weight) ∧
      ((exampleUpdate.height.isSome || exampleUpdate.weight.isSome) = true →
        r.bmi = calculate_bmi r.height r.weight ∧
        r.verdict = get_bmi_verdict r.bmi ∧
        r.height = exampleUpdate.height.getD exampleRecord.height ∧
        r.weight = exampleUpdate.weight.getD exampleRecord.weight) ∧
      (exampleUpdate.height = none → exampleUpdate.weight = none →
        r.bmi = exampleRecord.bmi ∧ r.verdict = exampleRecord.verdict) ∧
      (∀ kv ∈ [("P001", exampleRecord)], kv.1 ≠ "P001" → kv ∈ d') ∧
      ("P001", r) ∈ d' :=
  claim_C2 [("P001", exampleRecord)] "P001" exampleUpdate exampleRecord rfl

/-- C3: the empty collection yields P001; on all-wellformed keys the new ID is
P followed by max ordinal + 1 zero-padded to 3 digits; creating N records in
sequence from empty yields the IDs with ordinals 1..N; and after deleting a
non-maximal ID the next created ID is max(existing)+1, never the deleted ID. -/
theorem claim_C3 :
    generate_patient_id [] = "P001" ∧
    (∀ data : Collection, data ≠ [] → (∀ kv ∈ data, isPidKey kv.1 = true) →
      generate_patient_id data = pidString (maxOrd data + 1)) ∧
    (∀ inputs : List PatientIn,
      assignedIds [] inputs =
        (List.range inputs.length).map fun i => pidString (i + 1)) ∧
    (∀ (data : Collection) (pid : String) (d' : Collection) (r : Record),
      delete_patient data pid = .ok (d', r) → parseOrd pid < maxOrd data →
      generate_patient_id d' = pidString (maxOrd data + 1) ∧
      generate_patient_id d' ≠ pid) := by
  refine ⟨rfl, ?_, ?_, ?_⟩
  · intro data hne _
    exact generate_eq_of_ne_nil hne
  · intro inputs
    rw [assignedIds_eq inputs (Or.inl ⟨rfl, rfl⟩)]
    refine List.map_congr_left ?_
    intro i _
    rw [Nat.zero_add]
  · intro data pid d' r hdel hlt
    cases h : data.lookup pid with
    | none => rw [delete_patient_none h] at hdel; exact absurd hdel (by simp)
    | some r1 =>
      rw [delete_patient_some h] at hdel
      simp only [Except.ok.injEq, Prod.mk.injEq] at hdel
      obtain ⟨hd', -⟩ := hdel
      obtain ⟨hmax, hne⟩ := maxOrd_dictErase_of_lt hlt
      subst hd'
      refine ⟨by rw [generate_eq_of_ne_nil hne, hmax], ?_⟩
      rw [generate_eq_of_ne_nil hne, hmax]
      intro he
      have hp : parseOrd pid = maxOrd data + 1 := by
        rw [← he, parseOrd_pidString]
      omega

/-- Witness for C3's delete clause: delete P001 from a P001/P002 collection;
the next ID would still be P003 and is not the deleted P001. -/
theorem claim_C3_witness :
    generate_patient_id (dictErase exampleTwo "P001") =
      pidString (maxOrd exampleTwo + 1) ∧
    generate_patient_id (dictErase exampleTwo "P001") ≠ "P001" :=
  (claim_C3.2.2.2 exampleTwo "P001" (dictErase exampleTwo "P001")
    exampleRecord rfl (by decide))

/-- C10: once the maximal ordinal reaches 999, the generated ID is P followed
by the full decimal numeral of max+1 (the 3-digit padding widens rather than
truncating), and the generated ID differs from every existing key. -/
theorem claim_C10 (data : Collection) (hne : data ≠ [])
    (h999 : 999 ≤ maxOrd data) :
    generate_patient_id data = ⟨'P' :: natToChars (maxOrd data + 1)⟩ ∧
    4 ≤ (natToChars (maxOrd data + 1)).length ∧
    ∀ kv ∈ data, kv.1 ≠ generate_patient_id data := by
  have hlen : 4 ≤ (natToChars (maxOrd data + 1)).length := by
    unfold natToChars
    rw [if_neg (by omega)]
    rw [List.length_reverse, List.length_map]
    by_contra hlt
    push_neg at hlt
    have hup := lt_pow_length_decDigitsAux (maxOrd data + 1) (maxOrd data + 1) le_rfl
    have hpow : (10 : ℕ) ^ (decDigitsAux (maxOrd data + 1) (maxOrd data + 1)).length
        ≤ 10 ^ 3 := Nat.pow_le_pow_right (by norm_num) (by

      exact Nat.lt_succ_iff.mp hlt)
    have : maxOrd data + 1 < 1000 := lt_of_lt_of_le hup hpow
    omega
  refine ⟨?_, hlen, ?_⟩
  · rw [generate_eq_of_ne_nil hne]
    unfold pidString zfillChars
    have h0 : 3 - (natToChars (maxOrd data + 1)).length = 0 := by omega
    rw [h0, List.replicate_zero, List.nil_append]
  · exact (lookup_eq_none_iff data (generate_patient_id data)).mp
      (generate_fresh data)

/-- Witness for C10: with P999 stored, the next ID is P1000. -/
theorem claim_C10_witness :
    generate_patient_id p999Data = ⟨'P' :: natToChars (maxOrd p999Data + 1)⟩ ∧
    4 ≤ (natToChars (maxOrd p999Data + 1)).length ∧
    ∀ kv ∈ p999Data, kv.1 ≠ generate_patient_id p999Data :=
  claim_C10 p999Data (by simp [p999Data]) (by decide)

/-- C4: in every collection state reachable from empty through create, update
and delete, every persisted record's bmi equals round(weight / height^2, 2)
and its verdict is the classification of that bmi: derived fields are never
stale. -/
theorem claim_C4 (data : Collection) (h : Reachable data) :
    derivedConsistent data := by
  induction h with
  | empty => intro kv hkv; simp at hkv
  | create p _ ih =>
    intro kv hkv
    rw [add_patient_collection] at hkv
    rcases List.mem_append.mp hkv with hm | hm
    · exact ih kv hm
    · rw [List.mem_singleton] at hm
      subst hm
      exact ⟨rfl, rfl⟩
  | update pid u _ heq ih =>
    rename_i d d' r _
    cases h0 : d.lookup pid with
    | none => rw [update_patient_none h0] at heq; exact absurd heq (by simp)
    | some r0 =>
      rw [update_patient_some h0] at heq
      simp only [Except.ok.injEq, Prod.mk.injEq] at heq
      obtain ⟨hd', -⟩ := heq
      subst hd'
      intro kv hkv
      obtain ⟨kv0, hkv0, hkveq⟩ := List.mem_map.mp hkv
      by_cases hk : kv0.1 = pid
      · rw [if_pos hk] at hkveq
        subst hkveq
        by_cases hrec : (u.height.isSome || u.weight.isSome) = true
        · exact updRec_recomputed hrec r0
        · have hh : u.height = none := by
            cases hu : u.height
            · rfl
            · rw [hu] at hrec; simp at hrec
          have hw : u.weight = none := by
            cases hu : u.weight
            · rfl
            · rw [hu] at hrec; simp at hrec
          obtain ⟨h1, h2, h3, h4⟩ := updRec_untouched hh hw r0
          obtain ⟨hb, hv⟩ := ih (pid, r0) (lookup_mem h0)
          constructor
          · rw [h1, h3, h4]
            exact hb
          · rw [h2, h1]
            exact hv
      · rw [if_neg hk] at hkveq
        subst hkveq
        exact ih kv0 hkv0
  | delete pid _ heq ih =>
    rename_i d d' r _
    cases h0 : d.lookup pid with
    | none => rw [delete_patient_none h0] at heq; exact absurd heq (by simp)
    | some r0 =>
      rw [delete_patient_some h0] at heq
      simp only [Except.ok.injEq, Prod.mk.injEq] at heq
      obtain ⟨hd', -⟩ := heq
      subst hd'
      intro kv hkv
      exact ih kv (mem_dictErase.mp hkv).1

/-- Witness for C4: the record stored by one create from the empty store has
consistent derived fields. -/
theorem claim_C4_witness :
    (mkRecord examplePatient).bmi =
      calculate_bmi (mkRecord examplePatient).height
        (mkRecord examplePatient).weight ∧
    (mkRecord examplePatient).verdict =
      get_bmi_verdict (mkRecord examplePatient).bmi :=
  claim_C4 (add_patient [] examplePatient).collection
    (Reachable.create examplePatient Reachable.empty)
    (generate_patient_id [], mkRecord examplePatient)
    (by rw [add_patient_collection]
        exact List.mem_append_right [] (List.mem_singleton_self _))

/-- C5: get, update and delete fail with NotFound exactly when the ID is
absent, and on that failure the persisted collection is unchanged; deleting a
nonexistent ID fails with NotFound, and deleting an existing ID followed by a
get of the same ID fails with NotFound. -/
theorem claim_C5 (data : Collection) (pid : String) (u : PatientUpdate) :
    (get_patient data pid = .error .notFound ↔ data.lookup pid = none) ∧
    ((∃ e, update_patient data pid u = .error e) ↔ data.lookup pid = none) ∧
    ((∃ e, delete_patient data pid = .error e) ↔ data.lookup pid = none) ∧
    (data.lookup pid = none →
      persistedAfterUpdate data pid u = data ∧
      persistedAfterDelete data pid = data) ∧
    (∀ (d' : Collection) (r : Record), delete_patient data pid = .ok (d', r) →
      get_patient d' pid = .error .notFound) := by
  cases h : data.lookup pid with
  | none =>
    refine ⟨?_, ?_, ?_, ?_, ?_⟩
    · simp [get_patient, h]
    · exact iff_of_true ⟨.notFound, update_patient_none h u⟩ rfl
    · exact iff_of_true ⟨.notFound, delete_patient_none h⟩ rfl
    · intro _
      constructor
      · unfold persistedAfterUpdate
        rw [update_patient_none h u]
      · unfold persistedAfterDelete
        rw [delete_patient_none h]
    · intro d' r hdel
      rw [delete_patient_none h] at hdel
      exact absurd hdel (by simp)
  | some r0 =>
    refine ⟨?_, ?_, ?_, ?_, ?_⟩
    · simp [get_patient, h]
    · simp [update_patient_some h u]
    · simp [delete_patient_some h]
    · intro hc
      exact absurd hc (by simp)
    · intro d' r hdel
      rw [delete_patient_some h] at hdel
      simp only [Except.ok.injEq, Prod.mk.injEq] at hdel
      obtain ⟨hd', -⟩ := hdel
      subst hd'
      unfold get_patient
      rw [dictErase_lookup]

/-- Witness for C5: a one-record collection and a missing ID. -/
theorem claim_C5_witness :
    (get_patient [("P001", exampleRecord)] "P002" = .error .notFound ↔
      List.lookup "P002" [("P001", exampleRecord)] = none) ∧
    ((∃ e, update_patient [("P001", exampleRecord)] "P002" exampleUpdate =
      .error e) ↔ List.lookup "P002" [("P001", exampleRecord)] = none) ∧
    ((∃ e, delete_patient [("P001", exampleRecord)] "P002" = .error e) ↔
      List.lookup "P002" [("P001", exampleRecord)] = none) ∧
    (List.lookup "P002" [("P001", exampleRecord)] = none →
      persistedAfterUpdate [("P001", exampleRecord)] "P002" exampleUpdate =
        [("P001", exampleRecord)] ∧
      persistedAfterDelete [("P001", exampleRecord)] "P002" =
        [("P001", exampleRecord)]) ∧
    (∀ (d' : Collection) (r : Record),
      delete_patient [("P001", exampleRecord)] "P002" = .ok (d', r) →
      get_patient d' "P002" = .error .notFound) :=
  claim_C5 [("P001", exampleRecord)] "P002" exampleUpdate

/-- C7: statistics on the empty collection returns the defined empty
indicator as a successful result, every nonempty collection produces a stats
payload, and the averages' divisor (the record count) is positive whenever a
stats payload is produced. -/
theorem claim_C7 :
    get_patient_statistics [] = .noPatients "No patients found for statistics" ∧
    (∀ data : Collection, data ≠ [] → ∃ s, get_patient_statistics data = .stats s) ∧
    (∀ (data : Collection) (s : Stats), get_patient_statistics data = .stats s →
      0 < data.length) := by
  refine ⟨rfl, ?_, ?_⟩
  · intro data hne
    match data with
    | [] => exact absurd rfl hne
    | a :: l => exact ⟨_, rfl⟩
  · intro data s heq
    match data with
    | [] => exact absurd heq (by simp [get_patient_statistics])
    | a :: l => simp

/-- Witness for C7: the two-record example produces a stats payload. -/
theorem claim_C7_witness :
    ∃ s, get_patient_statistics statExample = .stats s :=
  claim_C7.2.1 statExample (by simp [statExample])

/-- C8: findByCity returns exactly the records whose city equals the query
after lowercasing both sides, an empty match set is a successful no-patients
result, the nonempty case reports the matches and their count, and a record
with city Boston is matched by the queries boston and BOSTON. -/
theorem claim_C8 :
    (∀ (data : Collection) (city : String),
      (∀ kv : String × Record, kv ∈ matchesByCity data city ↔
        kv ∈ data ∧ strLower kv.2.city = strLower city) ∧
      (matchesByCity data city = [] →
        get_patients_by_city data city =
          .noPatients ("No patients found in " ++ city)) ∧
      (matchesByCity data city ≠ [] →
        get_patients_by_city data city =
          .found city (matchesByCity data city).length
            (matchesByCity data city))) ∧
    ("P001", bostonRec) ∈ matchesByCity [("P001", bostonRec)] "boston" ∧
    ("P001", bostonRec) ∈ matchesByCity [("P001", bostonRec)] "BOSTON" := by
  refine ⟨?_, ?_, ?_⟩
  · intro data city
    refine ⟨?_, ?_, ?_⟩
    · intro kv
      unfold matchesByCity
      rw [List.mem_filter, beq_iff_eq]
    · intro hmt
      unfold get_patients_by_city
      rw [hmt]
    · intro hmt
      unfold get_patients_by_city
      match hm : matchesByCity data city with
      | [] => exact absurd hm hmt
      | x :: xs => rfl
  · exact List.mem_filter.mpr ⟨List.mem_singleton_self _, by decide⟩
  · exact List.mem_filter.mpr ⟨List.mem_singleton_self _, by decide⟩

/-- Witness for C8: the characterization at the Boston example collection. -/
theorem claim_C8_witness :
    ("P001", bostonRec) ∈ matchesByCity [("P001", bostonRec)] "boston" ↔
      ("P001", bostonRec) ∈ ([("P001", bostonRec)] : Collection) ∧
      strLower bostonRec.city = strLower "boston" :=
  (claim_C8.1 [("P001", bostonRec)] "boston").1 ("P001", bostonRec)

/-- C9: create reads only the six input fields; two create inputs agreeing on
name, city, age, gender, height and weight produce identical results, whatever
bmi or verdict the caller supplies. -/
theorem claim_C9 (data : Collection) (p q : PatientIn)
    (h1 : p.name = q.name) (h2 : p.city = q.city) (h3 : p.age = q.age)
    (h4 : p.gender = q.gender) (h5 : p.height = q.height)
    (h6 : p.weight = q.weight) :
    add_patient data p = add_patient data q := by
  unfold add_patient mkRecord
  rw [h1, h2, h3, h4, h5, h6]

/-- Witness for C9: client-supplied bmi 99 and verdict Hacked change nothing
about the stored result. -/
theorem claim_C9_witness :
    add_patient [] exampleTampered = add_patient [] examplePatient :=
  claim_C9 [] exampleTampered examplePatient rfl rfl rfl rfl rfl rfl

/-- C6: on every non-empty collection, statistics reports the record count,
the mean age rounded to 1 decimal with exact min/max age, the mean bmi
rounded to 2 decimals with exact min/max bmi, and frequency tables over
gender, city and verdict values; on the example records (age 20, bmi 30) and
(age 40, bmi 20) it reports average_age 30, min_age 20, max_age 40,
average_bmi 25, min_bmi 20, max_bmi 30. -/
theorem claim_C6 :
    (∀ data : Collection, data ≠ [] →
      ∃ s, get_patient_statistics data = .stats s ∧
        s.total_patients = data.length ∧
        s.average_age =
          pyRound (((data.map fun kv => kv.2.age).map (Int.cast : ℤ → ℚ)).sum /
            (data.length : ℚ)) 1 ∧
        s.min_age ∈ data.map (fun kv => kv.2.age) ∧
        (∀ a ∈ data.map (fun kv => kv.2.age), s.min_age ≤ a) ∧
        s.max_age ∈ data.map (fun kv => kv.2.age) ∧
        (∀ a ∈ data.map (fun kv => kv.2.age), a ≤ s.max_age) ∧
        s.average_bmi =
          pyRound ((data.map fun kv => kv.2.bmi).sum / (data.length : ℚ)) 2 ∧
        s.min_bmi ∈ data.map (fun kv => kv.2.bmi) ∧
        (∀ b ∈ data.map (fun kv => kv.2.bmi), s.min_bmi ≤ b) ∧
        s.max_bmi ∈ data.map (fun kv => kv.2.bmi) ∧
        (∀ b ∈ data.map (fun kv => kv.2.bmi), b ≤ s.max_bmi) ∧
        (∀ g, s.gender_distribution.lookup g =
          if 0 < (data.map fun kv => kv.2.gender).count g
          then some ((data.map fun kv => kv.2.gender).count g) else none) ∧
        (∀ c, s.city_distribution.lookup c =
          if 0 < (data.map fun kv => kv.2.city).count c
          then some ((data.map fun kv => kv.2.city).count c) else none) ∧
        (∀ v, s.bmi_verdict_distribution.lookup v =
          if 0 < (data.map fun kv => kv.2.verdict).count v
          then some ((data.map fun kv => kv.2.verdict).count v) else none)) ∧
    (∃ s, get_patient_statistics statExample = .stats s ∧
      s.average_age = 30 ∧ s.min_age = 20 ∧ s.max_age = 40 ∧
      s.average_bmi = 25 ∧ s.min_bmi = 20 ∧ s.max_bmi = 30) := by
  constructor
  · intro data hne
    match data with
    | [] => exact absurd rfl hne
    | a :: l =>
      refine ⟨_, rfl, rfl, ?_, ?_, ?_, ?_, ?_, ?_, ?_, ?_, ?_, ?_,
        fun g => freqTable_lookup _ g, fun c => freqTable_lookup _ c,
        fun v => freqTable_lookup _ v⟩
      · simp only [List.length_map]
      · exact (foldl_min_cons_spec (a.2.age) (l.map fun kv => kv.2.age)).1
      · exact (foldl_min_cons_spec (a.2.age) (l.map fun kv => kv.2.age)).2
      · exact (foldl_max_cons_spec (a.2.age) (l.map fun kv => kv.2.age)).1
      · exact (foldl_max_cons_spec (a.2.age) (l.map fun kv => kv.2.age)).2
      · simp only [List.length_map]
      · exact (foldl_min_cons_spec (a.2.bmi) (l.map fun kv => kv.2.bmi)).1
      · exact (foldl_min_cons_spec (a.2.bmi) (l.map fun kv => kv.2.bmi)).2
      · exact (foldl_max_cons_spec (a.2.bmi) (l.map fun kv => kv.2.bmi)).1
      · exact (foldl_max_cons_spec (a.2.bmi) (l.map fun kv => kv.2.bmi)).2
  · refine ⟨_, rfl, ?_, ?_, ?_, ?_, ?_, ?_⟩
    · norm_num [statExample, statRecA, statRecB, pyRound, roundHalfEven]
    · norm_num [statExample, statRecA, statRecB, pyMinI]
    · norm_num [statExample, statRecA, statRecB, pyMaxI]
    · norm_num [statExample, statRecA, statRecB, pyRound, roundHalfEven]
    · norm_num [statExample, statRecA, statRecB, pyMinQ]
    · norm_num [statExample, statRecA, statRecB, pyMaxQ]

/-- Witness for C6 at the two-record statistics example. -/
theorem claim_C6_witness :
    ∃ s, get_patient_statistics statExample = .stats s ∧
      s.total_patients = statExample.length ∧
      s.average_age =
        pyRound (((statExample.map fun kv => kv.2.age).map (Int.cast : ℤ → ℚ)).sum /
          (statExample.length : ℚ)) 1 ∧
      s.min_age ∈ statExample.map (fun kv => kv.2.age) ∧
      (∀ a ∈ statExample.map (fun kv => kv.2.age), s.min_age ≤ a) ∧
      s.max_age ∈ statExample.map (fun kv => kv.2.age) ∧
      (∀ a ∈ statExample.map (fun kv => kv.2.age), a ≤ s.max_age) ∧
      s.average_bmi =
        pyRound ((statExample.map fun kv => kv.2.bmi).sum /
          (statExample.length : ℚ)) 2 ∧
      s.min_bmi ∈ statExample.map (fun kv => kv.2.bmi) ∧
      (∀ b ∈ statExample.map (fun kv => kv.2.bmi), s.min_bmi ≤ b) ∧
      s.max_bmi ∈ statExample.map (fun kv => kv.2.bmi) ∧
      (∀ b ∈ statExample.map (fun kv => kv.2.bmi), b ≤ s.max_bmi) ∧
      (∀ g, s.gender_distribution.lookup g =
        if 0 < (statExample.map fun kv => kv.2.gender).count g
        then some ((statExample.map fun kv => kv.2.gender).count g) else none) ∧
      (∀ c, s.city_distribution.lookup c =
        if 0 < (statExample.map fun kv => kv.2.city).count c
        then some ((statExample.map fun kv => kv.2.city).count c) else none) ∧
      (∀ v, s.bmi_verdict_distribution.lookup v =
        if 0 < (statExample.map fun kv => kv.2.verdict).count v
        then some ((statExample.map fun kv => kv.2.verdict).count v) else none) :=
  claim_C6.1 statExample (by simp [statExample])

end PatientMS
